import Mathlib

/-!
# Verification of the QDT crystal-calculator core

Shallow embedding of `src/physics/time_crystal.py` and
`src/physics/crystal_calculator.py`.

Modelling conventions:
* Machine floats are embedded as exact rationals (`ℚ`); decimal literals of the
  source become the corresponding exact rationals.
* The transcendental library functions used by the code (`np.sin`, `np.cos`,
  `np.exp`, `np.sqrt`, float `**` and the constant `np.pi`) are parameters of
  the embedding, collected in the structure `FloatFuns`; every theorem holds
  for an arbitrary interpretation of these functions unless it states an
  analytic hypothesis (such as `|sin x| ≤ 1`) explicitly.
* NumPy's silent NaN results of `0/0` (for example `np.mean([])`) are
  represented by the junk value `0` that `ℚ` division by zero produces; the
  theorems below never depend on the value of such a degenerate branch.
* Python exceptions (`ValueError` from `np.linspace` on a negative count,
  `IndexError` from `list[-1]` on an empty list, `numpy.linalg.LinAlgError`
  from `eigvals` on a matrix containing NaN) are embedded as `Except.error`.
-/

namespace QDT

/-- Interpretation of the floating transcendental primitives used by the code:
`sin`, `cos`, `exp`, `sqrt` (unary, total), `rpow` (float `**`), and `pi`. -/
structure FloatFuns where
  sin : ℚ → ℚ
  cos : ℚ → ℚ
  exp : ℚ → ℚ
  sqrt : ℚ → ℚ
  rpow : ℚ → ℚ → ℚ
  pi : ℚ

/-- `QDTConstants` of `src/physics/constants.py`. -/
structure QDTConstants where
  LAMBDA : ℚ := 0.867
  GAMMA : ℚ := 0.4497
  BETA : ℚ := 0.310
  ETA : ℚ := 0.520
  PHI : ℚ := 1.618033988749

/-- `TimeCrystalParameters` of `src/physics/time_crystal.py`. -/
structure TimeCrystalParameters where
  CRYSTAL_FREQUENCY : ℚ := 1.618033
  CRYSTAL_AMPLITUDE : ℚ := 0.1
  GAMMA_T : ℚ := 0.289

/-- `CrystalCalculatorConfig` of `src/physics/crystal_calculator.py`.
The integer fields are `ℤ` because Python integers may be negative. -/
structure CrystalCalculatorConfig where
  evolution_steps : ℤ := 100
  convergence_threshold : ℚ := 0.01
  stability_window : ℤ := 10
  resonance_depth : ℤ := 5

/-- Python's `x or d` applied to an optional float argument: `None` and the
falsy float `0.0` are both replaced by the default `d`. -/
def pyOr (x : Option ℚ) (d : ℚ) : ℚ :=
  match x with
  | none => d
  | some v => if v = 0 then d else v

/-- `TimeCrystalOscillator.time_crystal_oscillation` (time_crystal.py lines
50-69): both keyword arguments pass through Python `or` against the instance
defaults before `amplitude * np.sin(2 * np.pi * t * frequency)` is returned. -/
def time_crystal_oscillation (fns : FloatFuns) (p : TimeCrystalParameters)
    (t : ℚ) (frequency : Option ℚ) (amplitude : Option ℚ) : ℚ :=
  let f := pyOr frequency p.CRYSTAL_FREQUENCY
  let a := pyOr amplitude p.CRYSTAL_AMPLITUDE
  a * fns.sin (2 * fns.pi * t * f)

/-- `TimeCrystalOscillator.time_crystal_modulation` (time_crystal.py lines
71-93): `sin(2π·step·F/100) * (A * exp(-Γ_T·step/100))`. -/
def time_crystal_modulation (fns : FloatFuns) (p : TimeCrystalParameters)
    (step : ℚ) : ℚ :=
  let base_oscillation := fns.sin (2 * fns.pi * step * p.CRYSTAL_FREQUENCY / 100)
  let damped_amplitude := p.CRYSTAL_AMPLITUDE * fns.exp (-p.GAMMA_T * step / 100)
  base_oscillation * damped_amplitude

/-- `np.mean` of a list; the empty list gives the junk value `0`
(standing in for NumPy's NaN). -/
def listMean {K : Type} [DivisionRing K] (l : List K) : K :=
  l.sum / (l.length : K)

/-- Sum of products of deviations from the mean,
`Σ_k (x_k - mean x) * (y_k - mean y)`; the common factor of `np.cov`
(`1/(N-1)`) and of the correlation denominators is kept separate. -/
def covsum {K : Type} [Field K] (x y : List K) : K :=
  ∑ k ∈ Finset.range (min x.length y.length),
    (x.getD k 0 - listMean x) * (y.getD k 0 - listMean y)

/-- `Σ_k (x_k - mean x)^2`. -/
def varsum {K : Type} [Field K] (x : List K) : K := covsum x x

/-- `np.std` (population standard deviation) under the abstract `sqrt`. -/
def np_std (fns : FloatFuns) (l : List ℚ) : ℚ :=
  fns.sqrt (listMean (l.map (fun x => (x - listMean l) ^ 2)))

/-- Python slice `l[-w:]` for an integer `w`: a positive `w` keeps the last
`w` elements, `w = 0` keeps the whole list (`l[-0:] = l[0:]`), and a negative
`w` is the ordinary slice `l[(-w):]`. -/
def pySliceFromNeg (l : List ℚ) (w : ℤ) : List ℚ :=
  if 0 < w then l.drop (l.length - w.toNat) else l.drop (-w).toNat

/-- `np.diff`: successive differences. -/
def npDiff (l : List ℚ) : List ℚ :=
  List.zipWith (fun a b => b - a) l l.tail

/-- `np.linspace 0 10 n`: `n` evenly spaced samples over `[0, 10]`, endpoint
included; `n = 1` gives `[0]` and `n = 0` gives `[]`. -/
def linspace (n : ℕ) : List ℚ :=
  (List.range n).map (fun (i : ℕ) => if n = 1 then 0 else 10 * (i : ℚ) / ((n : ℚ) - 1))

/-- The `type_multipliers` dict literal (crystal_calculator.py lines 58-65). -/
def type_multipliers (fns : FloatFuns) : List (String × ℚ) :=
  [("currency", 0.867), ("human_life", 1.618), ("natural_resource", 1.414),
   ("crypto", 0.618), ("art", 1.732), ("radioactive_potato", fns.pi)]

/-- Python `dict.get(k, d)` over an association list. -/
def dictGetD : List (String × ℚ) → String → ℚ → ℚ
  | [], _, d => d
  | kv :: rest, k, d => if kv.1 = k then kv.2 else dictGetD rest k d

/-- Loop body of `CrystalCalculator._get_prime` (crystal_calculator.py lines
187-195): trial division of `num` against the primes found so far, until
`n + 1` primes are collected.  The `fuel` argument is an artifact of the
embedding (the Python `while` loop has no bound); `get_prime` supplies fuel
proven sufficient below, so the `fuel = 0` branch is never reached there. -/
def getPrimeGo (n : ℕ) : ℕ → List ℕ → ℕ → ℕ
  | 0, primes, _ => primes.getLastD 0
  | fuel + 1, primes, num =>
    if primes.length ≤ n then
      (if primes.all (fun p => num % p != 0) then
        getPrimeGo n fuel (primes ++ [num]) (num + 1)
      else
        getPrimeGo n fuel primes (num + 1))
    else primes.getLastD 0

/-- `CrystalCalculator._get_prime(n)`: the `n`-th prime (0-indexed). -/
def get_prime (n : ℕ) : ℕ := getPrimeGo n (2 ^ (n + 2)) [] 2

/-- The ordered list of primes below `n`; the loop invariant of
`_get_prime`'s trial division (its `primes` list always has this shape). -/
def primesBelow (n : ℕ) : List ℕ :=
  (List.range n).filter (fun m => decide (Nat.Prime m))

/-- `void_energy` before normalization (crystal_calculator.py lines 90-92). -/
def void_at (fns : FloatFuns) (c : QDTConstants) (p : TimeCrystalParameters)
    (t : ℚ) : ℚ :=
  fns.exp (-c.GAMMA * t) * fns.rpow (1 / max 1 t) c.BETA *
    (1 + 0.1 * time_crystal_modulation fns p t)

/-- `emergence_energy` before normalization (lines 95-100). -/
def emergence_at (fns : FloatFuns) (c : QDTConstants) (p : TimeCrystalParameters)
    (t : ℚ) : ℚ :=
  c.ETA * (1 - fns.exp (-(0.1 : ℚ) * t)) * fns.sin (fns.pi * t * c.PHI) *
    c.LAMBDA * c.GAMMA * (1 + 0.05 * time_crystal_modulation fns p t)

/-- The list `resonances` (lines 103-109): one term per `i < resonance_depth`,
with `p = _get_prime(i)`.  Python `range` of a non-positive bound is empty. -/
def resonances_at (fns : FloatFuns) (c : QDTConstants) (p : TimeCrystalParameters)
    (cfg : CrystalCalculatorConfig) (t : ℚ) : List ℚ :=
  (List.range cfg.resonance_depth.toNat).map (fun i =>
    fns.sin (2 * fns.pi * (get_prime i : ℚ) * c.LAMBDA * t) *
      fns.cos (fns.pi * (get_prime i : ℚ) * c.BETA * t) *
      (1 + 0.1 * time_crystal_modulation fns p t))

/-- `total_resonance = np.sum(np.abs(resonances))` (line 112). -/
def total_resonance_at (fns : FloatFuns) (c : QDTConstants)
    (p : TimeCrystalParameters) (cfg : CrystalCalculatorConfig) (t : ℚ) : ℚ :=
  ((resonances_at fns c p cfg t).map (fun x => |x|)).sum

/-- `normalized_resonance` (lines 113-116): guarded division. -/
def normalized_resonance_at (fns : FloatFuns) (c : QDTConstants)
    (p : TimeCrystalParameters) (cfg : CrystalCalculatorConfig) (t : ℚ) : ℚ :=
  if 0 < total_resonance_at fns c p cfg t then
    (resonances_at fns c p cfg t).sum / total_resonance_at fns c p cfg t
  else 0

/-- `filament_energy` before normalization (lines 119-122). -/
def filament_at (fns : FloatFuns) (c : QDTConstants) (p : TimeCrystalParameters)
    (cfg : CrystalCalculatorConfig) (t : ℚ) : ℚ :=
  c.LAMBDA * (1 - void_at fns c p t) +
    normalized_resonance_at fns c p cfg t *
      ((void_at fns c p t + emergence_at fns c p t) / 2) *
      (1 + 0.1 * time_crystal_modulation fns p t)

/-- `total = void_energy + filament_energy + emergence_energy` (line 125). -/
def total_at (fns : FloatFuns) (c : QDTConstants) (p : TimeCrystalParameters)
    (cfg : CrystalCalculatorConfig) (t : ℚ) : ℚ :=
  void_at fns c p t + filament_at fns c p cfg t + emergence_at fns c p t

/-- Normalized `void_energy` appended to the time series (lines 126, 140). -/
def voidN_at (fns : FloatFuns) (c : QDTConstants) (p : TimeCrystalParameters)
    (cfg : CrystalCalculatorConfig) (t : ℚ) : ℚ :=
  void_at fns c p t / total_at fns c p cfg t

/-- Normalized `filament_energy` (lines 127, 141). -/
def filamentN_at (fns : FloatFuns) (c : QDTConstants) (p : TimeCrystalParameters)
    (cfg : CrystalCalculatorConfig) (t : ℚ) : ℚ :=
  filament_at fns c p cfg t / total_at fns c p cfg t

/-- Normalized `emergence_energy` (lines 128, 142). -/
def emergenceN_at (fns : FloatFuns) (c : QDTConstants) (p : TimeCrystalParameters)
    (cfg : CrystalCalculatorConfig) (t : ℚ) : ℚ :=
  emergence_at fns c p t / total_at fns c p cfg t

/-- `crystal_phase = self.crystal.time_crystal_oscillation(t)` (line 131). -/
def crystal_phase_at (fns : FloatFuns) (p : TimeCrystalParameters) (t : ℚ) : ℚ :=
  time_crystal_oscillation fns p t none none

/-- `convergence = np.abs(crystal_phase - normalized_resonance)` (line 132). -/
def convergence_at (fns : FloatFuns) (c : QDTConstants) (p : TimeCrystalParameters)
    (cfg : CrystalCalculatorConfig) (t : ℚ) : ℚ :=
  |crystal_phase_at fns p t - normalized_resonance_at fns c p cfg t|

/-- The six `time_series` channels. -/
structure TimeSeries where
  void : List ℚ
  filament : List ℚ
  emergence : List ℚ
  resonance : List ℚ
  crystal_phase : List ℚ
  convergence : List ℚ

/-- Mutable state of the evolution loop: the growing channels, the FIFO
`stability_window` list and `convergence_history`. -/
structure LoopState where
  ts : TimeSeries
  window : List ℚ
  history : List ℚ

/-- State before the first iteration (lines 69-83). -/
def initState : LoopState := ⟨⟨[], [], [], [], [], []⟩, [], []⟩

/-- One iteration of the `for t in time_steps` loop (lines 85-147). -/
def stepFn (fns : FloatFuns) (c : QDTConstants) (p : TimeCrystalParameters)
    (cfg : CrystalCalculatorConfig) (s : LoopState) (t : ℚ) : LoopState :=
  let conv := convergence_at fns c p cfg t
  let wnd0 := s.window ++ [conv]
  let wnd := if cfg.stability_window < (wnd0.length : ℤ) then wnd0.drop 1 else wnd0
  { ts :=
      { void := s.ts.void ++ [voidN_at fns c p cfg t]
        filament := s.ts.filament ++ [filamentN_at fns c p cfg t]
        emergence := s.ts.emergence ++ [emergenceN_at fns c p cfg t]
        resonance := s.ts.resonance ++ [normalized_resonance_at fns c p cfg t]
        crystal_phase := s.ts.crystal_phase ++ [crystal_phase_at fns p t]
        convergence := s.ts.convergence ++ [conv] }
    window := wnd
    history := s.history ++ [listMean wnd] }

/-- The whole evolution loop over `np.linspace(0, 10, evolution_steps)`. -/
def runLoop (fns : FloatFuns) (c : QDTConstants) (p : TimeCrystalParameters)
    (cfg : CrystalCalculatorConfig) : LoopState :=
  (linspace cfg.evolution_steps.toNat).foldl (stepFn fns c p cfg) initState

/-- The `convergence_metrics` sub-record of the result. -/
structure ConvergenceMetrics where
  stability_score : ℚ
  convergence_rate : ℚ
  final_convergence : ℚ
  phase_coherence : ℚ
  amplitude_stability : ℚ

/-- The dict returned by `calculate_crystal_enhanced_value`. -/
structure SimResult where
  original_value : ℚ
  qdt_value : ℚ
  void_energy : ℚ
  filament_energy : ℚ
  emergence_energy : ℚ
  time_series : TimeSeries
  convergence_metrics : ConvergenceMetrics

/-- `TimeCrystalOscillator.analyze_crystal_stability` (time_crystal.py lines
150-179) restricted to the two fields the calculator consumes:
`phase_coherence = |mean(exp(i·2π·F·t))|` (the complex phasor magnitude,
written out as `sqrt((mean cos)² + (mean sin)²)`) and
`amplitude_stability = np.std(np.abs(oscillations))`. -/
def analyze_crystal_stability (fns : FloatFuns) (p : TimeCrystalParameters)
    (n_steps : ℕ) : ℚ × ℚ :=
  let t := linspace n_steps
  let oscillations := t.map (fun ti => time_crystal_oscillation fns p ti none none)
  let phase_coherence := fns.sqrt
    ((listMean (t.map (fun ti => fns.cos (2 * fns.pi * p.CRYSTAL_FREQUENCY * ti)))) ^ 2 +
     (listMean (t.map (fun ti => fns.sin (2 * fns.pi * p.CRYSTAL_FREQUENCY * ti)))) ^ 2)
  let amplitude_stability := np_std fns (oscillations.map (fun x => |x|))
  (phase_coherence, amplitude_stability)

/-- `CrystalCalculator.calculate_crystal_enhanced_value` (crystal_calculator.py
lines 42-185).  A negative `evolution_steps` makes `np.linspace` raise
`ValueError`; `evolution_steps = 0` leaves the channels empty so that
`time_series['void'][-1]` raises `IndexError`; otherwise the call returns the
result record. -/
def calculate_crystal_enhanced_value (fns : FloatFuns) (c : QDTConstants)
    (p : TimeCrystalParameters) (cfg : CrystalCalculatorConfig)
    (value : ℚ) (calculation_type : String) : Except String SimResult :=
  let multiplier := dictGetD (type_multipliers fns) calculation_type 1
  if cfg.evolution_steps < 0 then
    .error "ValueError: Number of samples must be non-negative"
  else
    let st := runLoop fns c p cfg
    match st.ts.void.getLast? with
    | none => .error "IndexError: list index out of range"
    | some final_void =>
      let final_filament := st.ts.filament.getLastD 0
      let final_emergence := st.ts.emergence.getLastD 0
      let cs := analyze_crystal_stability fns p cfg.evolution_steps.toNat
      .ok
        { original_value := value
          qdt_value := value * multiplier *
            (final_void * 0.4 + final_filament * 0.4 + final_emergence * 0.2)
          void_energy := final_void
          filament_energy := final_filament
          emergence_energy := final_emergence
          time_series := st.ts
          convergence_metrics :=
            { stability_score := 1 - listMean (pySliceFromNeg st.history cfg.stability_window)
              convergence_rate := listMean (npDiff st.history)
              final_convergence := st.history.getLastD 0
              phase_coherence := cs.1
              amplitude_stability := cs.2 } }

/-- `np.corrcoef(x, y)[0, 1]` for equal-length samples: the covariance entry
divided by the square roots of the variance entries (NumPy normalizes the
covariance matrix by `N - 1`; the quotient is formed exactly as NumPy does).
`none` stands for the NaN that NumPy produces when a variance is zero (which
includes every sample of length `< 2`). -/
def np_corrcoef01 (fns : FloatFuns) (x y : List ℚ) : Option ℚ :=
  if varsum x = 0 ∨ varsum y = 0 then none
  else some ((covsum x y / ((min x.length y.length : ℚ) - 1)) /
    (fns.sqrt (varsum x / ((min x.length y.length : ℚ) - 1)) *
     fns.sqrt (varsum y / ((min x.length y.length : ℚ) - 1))))

/-- The four channels stacked for the dimensionality analysis (lines 226-231). -/
def compChannels (ts : TimeSeries) : Fin 4 → List ℚ :=
  ![ts.void, ts.filament, ts.emergence, ts.crystal_phase]

/-- A rational sample embedded into `ℝ` for the spectral analysis. -/
def castList (l : List ℚ) : List ℝ := l.map (fun (q : ℚ) => (q : ℝ))

/-- The exact real Pearson correlation quotient, formed exactly as
`np.corrcoef` forms it (covariance over the product of root variances, each
normalized by `N - 1`); the symmetric `min` of the lengths coincides with the
common length on every input the analyzer accepts. -/
noncomputable def corrR (x y : List ℝ) : ℝ :=
  (covsum x y / ((min x.length y.length : ℝ) - 1)) /
    (Real.sqrt (varsum x / ((min x.length y.length : ℝ) - 1)) *
     Real.sqrt (varsum y / ((min x.length y.length : ℝ) - 1)))

/-- `np.corrcoef(components)` (line 232): the 4×4 correlation matrix of the
void, filament, emergence and crystal_phase channels, as an exact real
matrix. -/
noncomputable def corrMatrixR (ts : TimeSeries) : Matrix (Fin 4) (Fin 4) ℝ :=
  Matrix.of (fun i j => corrR (castList (compChannels ts i)) (castList (compChannels ts j)))

open scoped Classical in
/-- Denotation of `np.linalg.eigvals(correlations)` (line 233): the (real)
eigenvalues of the symmetric correlation matrix.  The matrix is Hermitian for
every input (proved below); the dead `else` branch only keeps this definition
independent of that theorem. -/
noncomputable def np_eigvals (ts : TimeSeries) : Fin 4 → ℝ :=
  if h : (corrMatrixR ts).IsHermitian then h.eigenvalues else fun _ => 0

open scoped Classical in
/-- `effective_dim = np.sum(eigenvalues > 0.1)` (line 234): the number of
eigenvalues exceeding the 10% threshold, with no clamping. -/
noncomputable def effective_dimensionality (ts : TimeSeries) : ℕ :=
  (Finset.univ.filter (fun i => (0.1 : ℝ) < np_eigvals ts i)).card

/-- The dict returned by `analyze_convergence_path`.  The two coupling fields
are `Option ℚ` because NumPy returns them as NaN (`none`) when the
corresponding channel variance vanishes. -/
structure PathMetrics where
  void_filament_coupling : Option ℚ
  crystal_resonance_coupling : Option ℚ
  convergence_stability : ℚ
  effective_dimensionality : ℕ
  final_convergence : ℚ

/-- `CrystalCalculator.analyze_convergence_path` (crystal_calculator.py lines
197-242).  The couplings are computed first (silently NaN when degenerate);
`np.linalg.eigvals` then raises `LinAlgError` whenever the 4×4 correlation
matrix contains a NaN, i.e. when any of the four stacked channels has zero
variance (which includes all channels of fewer than 2 samples); finally
`time_series['convergence'][-1]` raises `IndexError` on an empty channel. -/
noncomputable def analyze_convergence_path (fns : FloatFuns) (ts : TimeSeries) :
    Except String PathMetrics :=
  let vfc := np_corrcoef01 fns ts.void ts.filament
  let crc := np_corrcoef01 fns ts.crystal_phase ts.resonance
  let cs := 1 - np_std fns ts.convergence
  if varsum ts.void = 0 ∨ varsum ts.filament = 0 ∨ varsum ts.emergence = 0 ∨
      varsum ts.crystal_phase = 0 then
    .error "LinAlgError: Array must not contain infs or NaNs"
  else
    match ts.convergence.getLast? with
    | none => .error "IndexError: list index out of range"
    | some fc => .ok ⟨vfc, crc, cs, effective_dimensionality ts, fc⟩

/-- The category multiplier table exactly as the specification words it
(closed set of six labels, unknown label mapping to 1.0); compared against
the code's `dict.get` lookup in the theorem for claim C2. -/
def specCategoryMultiplier (fns : FloatFuns) (s : String) : ℚ :=
  if s = "currency" then 0.867
  else if s = "human_life" then 1.618
  else if s = "natural_resource" then 1.414
  else if s = "crypto" then 0.618
  else if s = "art" then 1.732
  else if s = "radioactive_potato" then fns.pi
  else 1

/-- The `i`-th resonance term exactly as the specification words it, with
`p_i` the `i`-th prime taken from Mathlib's `Nat.nth Nat.Prime`; compared
against the code's trial-division lookup in the theorem for claim C6. -/
noncomputable def specResonanceTerm (fns : FloatFuns) (c : QDTConstants)
    (p : TimeCrystalParameters) (i : ℕ) (t : ℚ) : ℚ :=
  fns.sin (2 * fns.pi * (Nat.nth Nat.Prime i : ℚ) * c.LAMBDA * t) *
    fns.cos (fns.pi * (Nat.nth Nat.Prime i : ℚ) * c.BETA * t) *
    (1 + 0.1 * time_crystal_modulation fns p t)

/-- `normalized_resonance` as the specification words it: the sum of the
spec's terms over `i < resonance_depth`, divided by the sum of their absolute
values when that is nonzero, else 0. -/
noncomputable def specNormalizedResonance (fns : FloatFuns) (c : QDTConstants)
    (p : TimeCrystalParameters) (cfg : CrystalCalculatorConfig) (t : ℚ) : ℚ :=
  let terms := (List.range cfg.resonance_depth.toNat).map
    (fun i => specResonanceTerm fns c p i t)
  if (terms.map (fun x => |x|)).sum ≠ 0 then terms.sum / (terms.map (fun x => |x|)).sum
  else 0

/-- A concrete interpretation of the transcendental primitives (`sin = 0`,
`cos = 1`, `exp = 1`, `sqrt = 0`, `rpow = 1`, `pi = 3`) used to evaluate the
embedding on closed inputs. -/
def fnsZero : FloatFuns := ⟨fun _ => 0, fun _ => 1, fun _ => 1, fun _ => 0, fun _ _ => 1, 3⟩

/-- A concrete interpretation with `sin = 1`, used where a nonzero sine value
is needed on a closed input. -/
def fnsOne : FloatFuns := ⟨fun _ => 1, fun _ => 1, fun _ => 1, fun _ => 0, fun _ _ => 1, 3⟩

/-- The default `TimeCrystalParameters()` instance. -/
def defaultParams : TimeCrystalParameters := {}

/-- The default `QDTConstants()` instance. -/
def defaultConstants : QDTConstants := {}

/-- The default `CrystalCalculatorConfig()` instance. -/
def defaultConfig : CrystalCalculatorConfig := {}

/-- A configuration with a prescribed number of evolution steps and the
remaining fields at their defaults. -/
def cfgSteps (n : ℤ) : CrystalCalculatorConfig := { evolution_steps := n }

/-- A configuration exercising the `resonance_depth <= 0` and
`stability_window > evolution_steps` edge cases at once. -/
def cfgDegenerate : CrystalCalculatorConfig :=
  { evolution_steps := 2, stability_window := 10, resonance_depth := 0 }

/-- Placeholder record used only to project the payload out of an `Except`. -/
def dummyResult : SimResult := ⟨0, 0, 0, 0, 0, ⟨[], [], [], [], [], []⟩, ⟨0, 0, 0, 0, 0⟩⟩

/-- Projection of a successful simulation result. -/
def okResult (e : Except String SimResult) : SimResult := e.toOption.getD dummyResult

/-- Placeholder analyzer record used only to project an `Except` payload. -/
def dummyMetrics : PathMetrics := ⟨none, none, 0, 0, 0⟩

/-- Projection of a successful analyzer result. -/
def okMetrics (e : Except String PathMetrics) : PathMetrics := e.toOption.getD dummyMetrics

/-- A time series of two constant samples per channel (equal length 2). -/
def tsConst2 : TimeSeries := ⟨[1, 1], [1, 1], [1, 1], [1, 1], [1, 1], [1, 1]⟩

/-- A time series of one sample per channel. -/
def tsSingle : TimeSeries := ⟨[1], [1], [1], [1], [1], [1]⟩

/-- A non-degenerate time series of two samples per channel. -/
def tsStep : TimeSeries := ⟨[0, 1], [0, 1], [0, 1], [0, 1], [0, 1], [0, 1]⟩

/-- The record built by the successful branch of
`calculate_crystal_enhanced_value`; proven below to be the payload whenever
`evolution_steps ≥ 1`. -/
def simResult (fns : FloatFuns) (c : QDTConstants) (p : TimeCrystalParameters)
    (cfg : CrystalCalculatorConfig) (value : ℚ) (calculation_type : String) :
    SimResult :=
  let multiplier := dictGetD (type_multipliers fns) calculation_type 1
  let st := runLoop fns c p cfg
  let final_void := st.ts.void.getLastD 0
  let final_filament := st.ts.filament.getLastD 0
  let final_emergence := st.ts.emergence.getLastD 0
  let cs := analyze_crystal_stability fns p cfg.evolution_steps.toNat
  { original_value := value
    qdt_value := value * multiplier *
      (final_void * 0.4 + final_filament * 0.4 + final_emergence * 0.2)
    void_energy := final_void
    filament_energy := final_filament
    emergence_energy := final_emergence
    time_series := st.ts
    convergence_metrics :=
      { stability_score := 1 - listMean (pySliceFromNeg st.history cfg.stability_window)
        convergence_rate := listMean (npDiff st.history)
        final_convergence := st.history.getLastD 0
        phase_coherence := cs.1
        amplitude_stability := cs.2 } }

/-! ## Structural lemmas about the evolution loop -/

lemma foldl_ts_void (fns : FloatFuns) (c : QDTConstants) (p : TimeCrystalParameters)
    (cfg : CrystalCalculatorConfig) (l : List ℚ) (s : LoopState) :
    (l.foldl (stepFn fns c p cfg) s).ts.void = s.ts.void ++ l.map (voidN_at fns c p cfg) := by
  induction l generalizing s with
  | nil => simp
  | cons a t ih => simp [stepFn, ih]

lemma foldl_ts_filament (fns : FloatFuns) (c : QDTConstants) (p : TimeCrystalParameters)
    (cfg : CrystalCalculatorConfig) (l : List ℚ) (s : LoopState) :
    (l.foldl (stepFn fns c p cfg) s).ts.filament =
      s.ts.filament ++ l.map (filamentN_at fns c p cfg) := by
  induction l generalizing s with
  | nil => simp
  | cons a t ih => simp [stepFn, ih]

lemma foldl_ts_emergence (fns : FloatFuns) (c : QDTConstants) (p : TimeCrystalParameters)
    (cfg : CrystalCalculatorConfig) (l : List ℚ) (s : LoopState) :
    (l.foldl (stepFn fns c p cfg) s).ts.emergence =
      s.ts.emergence ++ l.map (emergenceN_at fns c p cfg) := by
  induction l generalizing s with
  | nil => simp
  | cons a t ih => simp [stepFn, ih]

lemma foldl_ts_resonance (fns : FloatFuns) (c : QDTConstants) (p : TimeCrystalParameters)
    (cfg : CrystalCalculatorConfig) (l : List ℚ) (s : LoopState) :
    (l.foldl (stepFn fns c p cfg) s).ts.resonance =
      s.ts.resonance ++ l.map (normalized_resonance_at fns c p cfg) := by
  induction l generalizing s with
  | nil => simp
  | cons a t ih => simp [stepFn, ih]

lemma foldl_ts_crystal_phase (fns : FloatFuns) (c : QDTConstants) (p : TimeCrystalParameters)
    (cfg : CrystalCalculatorConfig) (l : List ℚ) (s : LoopState) :
    (l.foldl (stepFn fns c p cfg) s).ts.crystal_phase =
      s.ts.crystal_phase ++ l.map (crystal_phase_at fns p) := by
  induction l generalizing s with
  | nil => simp
  | cons a t ih => simp [stepFn, ih]

lemma foldl_ts_convergence (fns : FloatFuns) (c : QDTConstants) (p : TimeCrystalParameters)
    (cfg : CrystalCalculatorConfig) (l : List ℚ) (s : LoopState) :
    (l.foldl (stepFn fns c p cfg) s).ts.convergence =
      s.ts.convergence ++ l.map (convergence_at fns c p cfg) := by
  induction l generalizing s with
  | nil => simp
  | cons a t ih => simp [stepFn, ih]

lemma runLoop_void (fns : FloatFuns) (c : QDTConstants) (p : TimeCrystalParameters)
    (cfg : CrystalCalculatorConfig) :
    (runLoop fns c p cfg).ts.void =
      (linspace cfg.evolution_steps.toNat).map (voidN_at fns c p cfg) := by
  simp [runLoop, foldl_ts_void, initState]

lemma runLoop_filament (fns : FloatFuns) (c : QDTConstants) (p : TimeCrystalParameters)
    (cfg : CrystalCalculatorConfig) :
    (runLoop fns c p cfg).ts.filament =
      (linspace cfg.evolution_steps.toNat).map (filamentN_at fns c p cfg) := by
  simp [runLoop, foldl_ts_filament, initState]

lemma runLoop_emergence (fns : FloatFuns) (c : QDTConstants) (p : TimeCrystalParameters)
    (cfg : CrystalCalculatorConfig) :
    (runLoop fns c p cfg).ts.emergence =
      (linspace cfg.evolution_steps.toNat).map (emergenceN_at fns c p cfg) := by
  simp [runLoop, foldl_ts_emergence, initState]

lemma runLoop_resonance (fns : FloatFuns) (c : QDTConstants) (p : TimeCrystalParameters)
    (cfg : CrystalCalculatorConfig) :
    (runLoop fns c p cfg).ts.resonance =
      (linspace cfg.evolution_steps.toNat).map (normalized_resonance_at fns c p cfg) := by
  simp [runLoop, foldl_ts_resonance, initState]

lemma getD_map_of_lt {α β : Type} (f : α → β) (l : List α) (dα : α) (dβ : β)
    (i : ℕ) (h : i < l.length) :
    (l.map f).getD i dβ = f (l.getD i dα) := by
  induction l generalizing i with
  | nil => simp at h
  | cons a t ih =>
    cases i with
    | zero => simp
    | succ j => simpa using ih j (by simpa using h)

lemma linspace_length (n : ℕ) : (linspace n).length = n := by
  rw [linspace, List.length_map, List.length_range]

lemma runLoop_void_ne_nil (fns : FloatFuns) (c : QDTConstants)
    (p : TimeCrystalParameters) (cfg : CrystalCalculatorConfig)
    (h : 1 ≤ cfg.evolution_steps) : (runLoop fns c p cfg).ts.void ≠ [] := by
  intro hnil
  have hlen := congrArg List.length hnil
  rw [runLoop_void] at hlen
  simp only [List.length_map, linspace_length, List.length_nil] at hlen
  omega

lemma calculate_eq_ok (fns : FloatFuns) (c : QDTConstants)
    (p : TimeCrystalParameters) (cfg : CrystalCalculatorConfig) (v : ℚ) (s : String)
    (h : 1 ≤ cfg.evolution_steps) :
    calculate_crystal_enhanced_value fns c p cfg v s =
      .ok (simResult fns c p cfg v s) := by
  have h0 : ¬ cfg.evolution_steps < 0 := by omega
  have hne : (runLoop fns c p cfg).ts.void ≠ [] := runLoop_void_ne_nil fns c p cfg h
  obtain ⟨fv, hlast⟩ : ∃ x, (runLoop fns c p cfg).ts.void.getLast? = some x := by
    cases hx : (runLoop fns c p cfg).ts.void.getLast? with
    | none => exact absurd (List.getLast?_eq_none_iff.mp hx) hne
    | some x => exact ⟨x, rfl⟩
  have hfv : fv = (runLoop fns c p cfg).ts.void.getLastD 0 := by
    rw [List.getLastD_eq_getLast?, hlast]
    rfl
  simp only [calculate_crystal_enhanced_value]
  rw [if_neg h0, hlast, hfv]
  rfl

lemma calculate_isOk (fns : FloatFuns) (c : QDTConstants)
    (p : TimeCrystalParameters) (cfg : CrystalCalculatorConfig) (v : ℚ) (s : String)
    (h : 1 ≤ cfg.evolution_steps) :
    (calculate_crystal_enhanced_value fns c p cfg v s).isOk = true := by
  rw [calculate_eq_ok fns c p cfg v s h]
  rfl

lemma calculate_isOk_false (fns : FloatFuns) (c : QDTConstants)
    (p : TimeCrystalParameters) (cfg : CrystalCalculatorConfig) (v : ℚ) (s : String)
    (h : cfg.evolution_steps < 1) :
    (calculate_crystal_enhanced_value fns c p cfg v s).isOk = false := by
  by_cases h0 : cfg.evolution_steps < 0
  · simp only [calculate_crystal_enhanced_value]
    rw [if_pos h0]
    rfl
  · have hz : cfg.evolution_steps = 0 := by omega
    have hvoid : (runLoop fns c p cfg).ts.void = [] := by
      rw [runLoop_void, hz]
      simp [linspace]
    simp only [calculate_crystal_enhanced_value]
    rw [if_neg h0, hvoid]
    rfl

lemma list_abs_sum_le (l : List ℚ) : |l.sum| ≤ (l.map (fun x => |x|)).sum := by
  induction l with
  | nil => simp
  | cons a t ih =>
    simp only [List.sum_cons, List.map_cons]
    exact (abs_add a t.sum).trans (by linarith)

lemma multiplier_table (fns : FloatFuns) (s : String) :
    dictGetD (type_multipliers fns) s 1 = specCategoryMultiplier fns s := by
  by_cases h1 : s = "currency"
  · subst h1; rfl
  by_cases h2 : s = "human_life"
  · subst h2; rfl
  by_cases h3 : s = "natural_resource"
  · subst h3; rfl
  by_cases h4 : s = "crypto"
  · subst h4; rfl
  by_cases h5 : s = "art"
  · subst h5; rfl
  by_cases h6 : s = "radioactive_potato"
  · subst h6; rfl
  simp only [dictGetD, type_multipliers, specCategoryMultiplier]
  rw [if_neg (fun hh => h1 hh.symm), if_neg (fun hh => h2 hh.symm),
    if_neg (fun hh => h3 hh.symm), if_neg (fun hh => h4 hh.symm),
    if_neg (fun hh => h5 hh.symm), if_neg (fun hh => h6 hh.symm),
    if_neg h1, if_neg h2, if_neg h3, if_neg h4, if_neg h5, if_neg h6]

/-! ## Correctness of the trial-division prime lookup -/

lemma length_primesBelow (n : ℕ) :
    (primesBelow n).length = Nat.count Nat.Prime n := by
  rw [Nat.count, List.countP_eq_length_filter]
  rfl

lemma primesBelow_succ (n : ℕ) :
    primesBelow (n + 1) =
      primesBelow n ++ if Nat.Prime n then [n] else [] := by
  rw [primesBelow, primesBelow, List.range_succ, List.filter_append]
  by_cases h : Nat.Prime n <;> simp [h]

lemma mem_primesBelow {m n : ℕ} :
    m ∈ primesBelow n ↔ m.Prime ∧ m < n := by
  simp [primesBelow, List.mem_filter, List.mem_range, and_comm]

lemma primesBelow_pairwise_lt (n : ℕ) : (primesBelow n).Pairwise (· < ·) :=
  (List.pairwise_lt_range n).sublist (List.filter_sublist _)

lemma getLast?_mem : ∀ {l : List ℕ} {y : ℕ}, l.getLast? = some y → y ∈ l
  | [a], y, h => by simp at h; simp [h]
  | a :: b :: t, y, h => by
    rw [List.getLast?_cons_cons] at h
    exact List.mem_cons_of_mem a (getLast?_mem h)
  | [], _, h => by simp at h

lemma le_getLast?_of_sorted : ∀ {l : List ℕ}, l.Pairwise (· ≤ ·) →
    ∀ {x : ℕ}, x ∈ l → ∀ {y : ℕ}, l.getLast? = some y → x ≤ y
  | [a], _, x, hx, y, hy => by
    simp at hx hy
    omega
  | a :: b :: t, hp, x, hx, y, hy => by
    rw [List.getLast?_cons_cons] at hy
    rcases List.mem_cons.mp hx with rfl | hx2
    · exact (List.pairwise_cons.mp hp).1 y (getLast?_mem hy)
    · exact le_getLast?_of_sorted (List.pairwise_cons.mp hp).2 hx2 hy
  | [], _, x, hx, y, hy => by simp at hx

/-- When exactly `k + 1` primes lie below `num`, the last of them is the
`k`-th prime. -/
lemma primesBelow_getLastD {num k : ℕ} (h : Nat.count Nat.Prime num = k + 1) :
    (primesBelow num).getLastD 0 = Nat.nth Nat.Prime k := by
  have hq : (Nat.nth Nat.Prime k).Prime :=
    Nat.nth_mem_of_infinite Nat.infinite_setOf_prime k
  have hqlt : Nat.nth Nat.Prime k < num :=
    Nat.nth_lt_of_lt_count (by omega)
  have hqmem : Nat.nth Nat.Prime k ∈ primesBelow num :=
    mem_primesBelow.mpr ⟨hq, hqlt⟩
  obtain ⟨g, hg⟩ : ∃ g, (primesBelow num).getLast? = some g := by
    cases hl : (primesBelow num).getLast? with
    | none =>
      rw [List.getLast?_eq_none_iff] at hl
      rw [hl] at hqmem
      simp at hqmem
    | some g => exact ⟨g, rfl⟩
  have hgmem : g ∈ primesBelow num := getLast?_mem hg
  have hgmax : g ≤ Nat.nth Nat.Prime k := by
    obtain ⟨hgp, hglt⟩ := mem_primesBelow.mp hgmem
    have hcount : Nat.count Nat.Prime g ≤ k := by
      have hmono : Nat.count Nat.Prime (g + 1) ≤ Nat.count Nat.Prime num :=
        Nat.count_monotone _ hglt
      rw [Nat.count_succ, if_pos hgp] at hmono
      omega
    calc g = Nat.nth Nat.Prime (Nat.count Nat.Prime g) := (Nat.nth_count hgp).symm
    _ ≤ Nat.nth Nat.Prime k :=
      (Nat.nth_le_nth Nat.infinite_setOf_prime).mpr hcount
  have hmax : Nat.nth Nat.Prime k ≤ g :=
    le_getLast?_of_sorted ((primesBelow_pairwise_lt num).imp le_of_lt) hqmem hg
  rw [List.getLastD_eq_getLast?, hg]
  simp
  omega

/-- For `num ≥ 2`, the trial division test against all primes below `num`
succeeds exactly when `num` is prime. -/
lemma primesBelow_all_test {num : ℕ} (h2 : 2 ≤ num) :
    (primesBelow num).all (fun p => num % p != 0) = true ↔ Nat.Prime num := by
  rw [List.all_eq_true]
  constructor
  · intro hall
    by_contra hnp
    have hmf : num.minFac.Prime := Nat.minFac_prime (by omega)
    have hdvd : num.minFac ∣ num := Nat.minFac_dvd num
    have hlt : num.minFac < num := by
      rcases lt_or_eq_of_le (Nat.minFac_le (show 0 < num by omega)) with h | h
      · exact h
      · exact absurd (h ▸ hmf) hnp
    have hmem : num.minFac ∈ primesBelow num := mem_primesBelow.mpr ⟨hmf, hlt⟩
    have := hall _ hmem
    rw [bne_iff_ne, ne_eq, ← Nat.dvd_iff_mod_eq_zero] at this
    · exact this hdvd
  · intro hp q hq
    obtain ⟨hqp, hqlt⟩ := mem_primesBelow.mp hq
    rw [bne_iff_ne, ne_eq, ← Nat.dvd_iff_mod_eq_zero]
    intro hdvd
    rcases (Nat.Prime.eq_one_or_self_of_dvd hp q hdvd) with h1 | hs
    · exact Nat.Prime.one_lt hqp |>.ne' h1
    · omega

/-- Loop invariant: started on the primes below `num` with enough fuel, the
trial-division loop returns the `n`-th prime. -/
lemma getPrimeGo_correct (n : ℕ) : ∀ (fuel num : ℕ), 2 ≤ num →
    Nat.count Nat.Prime num ≤ n + 1 →
    Nat.nth Nat.Prime n + 1 < num + fuel →
    getPrimeGo n fuel (primesBelow num) num = Nat.nth Nat.Prime n := by
  intro fuel
  induction fuel with
  | zero =>
    intro num h2 hle hfuel
    have hcnt : Nat.count Nat.Prime num = n + 1 := by
      have : Nat.count Nat.Prime (Nat.nth Nat.Prime n + 1) ≤ Nat.count Nat.Prime num :=
        Nat.count_monotone _ (by omega)
      rw [Nat.count_nth_succ_of_infinite Nat.infinite_setOf_prime] at this
      omega
    rw [getPrimeGo]
    exact primesBelow_getLastD hcnt
  | succ fuel ih =>
    intro num h2 hle hfuel
    rw [getPrimeGo]
    by_cases hlen : (primesBelow num).length ≤ n
    · rw [if_pos hlen]
      by_cases hp : Nat.Prime num
      · rw [if_pos ((primesBelow_all_test h2).mpr hp)]
        have hnext : primesBelow num ++ [num] = primesBelow (num + 1) := by
          rw [primesBelow_succ, if_pos hp]
        rw [hnext]
        exact ih (num + 1) (by omega)
          (by rw [Nat.count_succ, if_pos hp, ← length_primesBelow]; omega)
          (by omega)
      · rw [if_neg (fun hall => hp ((primesBelow_all_test h2).mp hall))]
        have hnext : primesBelow num = primesBelow (num + 1) := by
          rw [primesBelow_succ, if_neg hp, List.append_nil]
        rw [hnext]
        exact ih (num + 1) (by omega)
          (by rw [Nat.count_succ, if_neg hp]; omega)
          (by omega)
    · rw [if_neg hlen]
      have hcnt : Nat.count Nat.Prime num = n + 1 := by
        rw [← length_primesBelow] at hle
        rw [← length_primesBelow]
        omega
      exact primesBelow_getLastD hcnt

/-- Each prime is at most `2^(n+1)`-th of its rank, by Bertrand's postulate. -/
lemma nth_prime_le_pow (n : ℕ) : Nat.nth Nat.Prime n ≤ 2 ^ (n + 1) := by
  induction n with
  | zero =>
    have h2 : Nat.count Nat.Prime 2 = 0 := by
      rw [Nat.count_succ, Nat.count_succ, Nat.count_zero]
      simp [Nat.not_prime_zero, Nat.not_prime_one]
    have := Nat.nth_count Nat.prime_two
    rw [h2] at this
    omega
  | succ n ih =>
    have hp : (Nat.nth Nat.Prime n).Prime :=
      Nat.nth_mem_of_infinite Nat.infinite_setOf_prime n
    obtain ⟨p, hpp, hgt, hle2⟩ :=
      Nat.exists_prime_lt_and_le_two_mul (Nat.nth Nat.Prime n) hp.pos.ne'
    have hcp : n + 1 ≤ Nat.count Nat.Prime p := by
      have hmono : Nat.count Nat.Prime (Nat.nth Nat.Prime n + 1) ≤ Nat.count Nat.Prime p :=
        Nat.count_monotone _ (by omega)
      rw [Nat.count_nth_succ_of_infinite Nat.infinite_setOf_prime] at hmono
      omega
    have hnth : Nat.nth Nat.Prime (n + 1) ≤ p := by
      calc Nat.nth Nat.Prime (n + 1) ≤ Nat.nth Nat.Prime (Nat.count Nat.Prime p) :=
        (Nat.nth_le_nth Nat.infinite_setOf_prime).mpr hcp
      _ = p := Nat.nth_count hpp
    calc Nat.nth Nat.Prime (n + 1) ≤ p := hnth
    _ ≤ 2 * Nat.nth Nat.Prime n := hle2
    _ ≤ 2 * 2 ^ (n + 1) := by omega
    _ = 2 ^ (n + 2) := by ring

/-- `_get_prime` computes the `n`-th prime. -/
lemma get_prime_eq_nth (n : ℕ) : get_prime n = Nat.nth Nat.Prime n := by
  have hempty : primesBelow 2 = [] := by
    rw [primesBelow]
    simp [List.range_succ, Nat.not_prime_zero, Nat.not_prime_one]
  have hcnt : Nat.count Nat.Prime 2 = 0 := by
    rw [Nat.count_succ, Nat.count_succ, Nat.count_zero]
    simp [Nat.not_prime_zero, Nat.not_prime_one]
  have hbound : Nat.nth Nat.Prime n + 1 < 2 + 2 ^ (n + 2) := by
    have h1 := nth_prime_le_pow n
    have h2 : (2 : ℕ) ^ (n + 2) = 2 * 2 ^ (n + 1) := by ring
    omega
  rw [get_prime, ← hempty]
  exact getPrimeGo_correct n (2 ^ (n + 2)) 2 le_rfl (by omega) hbound

lemma sum_map_abs_nonneg (l : List ℚ) : 0 ≤ (l.map (fun x => |x|)).sum := by
  refine List.sum_nonneg ?_
  intro x hx
  obtain ⟨y, _, rfl⟩ := List.mem_map.mp hx
  exact abs_nonneg y

lemma normalized_resonance_eq_spec (fns : FloatFuns) (c : QDTConstants)
    (p : TimeCrystalParameters) (cfg : CrystalCalculatorConfig) (t : ℚ) :
    normalized_resonance_at fns c p cfg t = specNormalizedResonance fns c p cfg t := by
  have hterms : resonances_at fns c p cfg t =
      (List.range cfg.resonance_depth.toNat).map (fun i => specResonanceTerm fns c p i t) := by
    rw [resonances_at]
    exact List.map_congr_left (fun i _ => by rw [specResonanceTerm, get_prime_eq_nth])
  simp only [normalized_resonance_at, specNormalizedResonance, total_resonance_at, hterms]
  exact if_congr
    ⟨fun h => h.ne', fun h => lt_of_le_of_ne (sum_map_abs_nonneg _) (Ne.symm h)⟩ rfl rfl

/-! ## Analyzer lemmas -/

lemma varsum_of_length_lt_two : ∀ (x : List ℚ), x.length < 2 → varsum x = 0
  | [], _ => by simp [varsum, covsum]
  | [a], _ => by
    simp [varsum, covsum, listMean]
  | a :: b :: t, h => by
    simp only [List.length_cons] at h
    omega

lemma analyze_eq_ok (fns : FloatFuns) (ts : TimeSeries)
    (h1 : varsum ts.void ≠ 0) (h2 : varsum ts.filament ≠ 0)
    (h3 : varsum ts.emergence ≠ 0) (h4 : varsum ts.crystal_phase ≠ 0)
    (h5 : ts.convergence ≠ []) :
    analyze_convergence_path fns ts = .ok
      ⟨np_corrcoef01 fns ts.void ts.filament,
       np_corrcoef01 fns ts.crystal_phase ts.resonance,
       1 - np_std fns ts.convergence,
       effective_dimensionality ts,
       ts.convergence.getLastD 0⟩ := by
  obtain ⟨x, hx⟩ : ∃ x, ts.convergence.getLast? = some x := by
    cases hc : ts.convergence.getLast? with
    | none => exact absurd (List.getLast?_eq_none_iff.mp hc) h5
    | some x => exact ⟨x, rfl⟩
  have hxd : x = ts.convergence.getLastD 0 := by
    rw [List.getLastD_eq_getLast?, hx]
    rfl
  simp only [analyze_convergence_path]
  rw [if_neg (by tauto), hx, hxd]

lemma analyze_error_of_degenerate (fns : FloatFuns) (ts : TimeSeries)
    (h : varsum ts.void = 0 ∨ varsum ts.filament = 0 ∨ varsum ts.emergence = 0 ∨
      varsum ts.crystal_phase = 0) :
    analyze_convergence_path fns ts =
      .error "LinAlgError: Array must not contain infs or NaNs" := by
  simp only [analyze_convergence_path]
  rw [if_pos h]

/-! ## Spectral lemmas for the dimensionality analysis -/

lemma castList_length (l : List ℚ) : (castList l).length = l.length := by
  simp [castList]

lemma castList_getD (l : List ℚ) (k : ℕ) :
    (castList l).getD k 0 = ((l.getD k 0 : ℚ) : ℝ) := by
  rcases lt_or_ge k l.length with h | h
  · rw [castList, getD_map_of_lt _ _ (0 : ℚ) _ k h]
  · have h2 : (castList l).length ≤ k := by
      rw [castList_length]
      exact h
    rw [List.getD_eq_default _ _ h2, List.getD_eq_default _ _ h]
    simp

lemma castList_sum (l : List ℚ) : (castList l).sum = ((l.sum : ℚ) : ℝ) := by
  rw [castList]
  exact (map_list_sum (Rat.castHom ℝ) l).symm

lemma listMean_cast (l : List ℚ) : listMean (castList l) = ((listMean l : ℚ) : ℝ) := by
  rw [listMean, listMean, castList_sum, castList_length]
  push_cast
  ring

lemma covsum_cast (x y : List ℚ) :
    covsum (castList x) (castList y) = ((covsum x y : ℚ) : ℝ) := by
  rw [covsum, covsum, castList_length, castList_length, Rat.cast_sum]
  refine Finset.sum_congr rfl (fun k _ => ?_)
  rw [castList_getD, listMean_cast, castList_getD, listMean_cast]
  push_cast
  ring

lemma varsum_cast (x : List ℚ) : varsum (castList x) = ((varsum x : ℚ) : ℝ) := by
  rw [varsum, varsum, covsum_cast]

lemma varsum_nonneg {K : Type} [LinearOrderedField K] (x : List K) : 0 ≤ varsum x := by
  rw [varsum, covsum]
  exact Finset.sum_nonneg (fun k _ => mul_self_nonneg _)

lemma covsum_comm {K : Type} [Field K] (x y : List K) : covsum x y = covsum y x := by
  rw [covsum, covsum, min_comm]
  exact Finset.sum_congr rfl (fun k _ => mul_comm _ _)

lemma corrR_comm (x y : List ℝ) : corrR x y = corrR y x := by
  rw [corrR, corrR, covsum_comm, min_comm]
  ring

lemma corrMatrixR_isHermitian (ts : TimeSeries) : (corrMatrixR ts).IsHermitian := by
  show Matrix.conjTranspose (corrMatrixR ts) = corrMatrixR ts
  ext i j
  rw [Matrix.conjTranspose_apply, corrMatrixR]
  simp only [Matrix.of_apply, star_trivial]
  exact corrR_comm _ _

lemma np_eigvals_eq (ts : TimeSeries) :
    np_eigvals ts = (corrMatrixR_isHermitian ts).eigenvalues := by
  rw [np_eigvals, dif_pos (corrMatrixR_isHermitian ts)]

lemma corrR_eq (x y : List ℝ) (N : ℕ) (hN : 2 ≤ N) (hx : x.length = N)
    (hy : y.length = N) (hvx : 0 < varsum x) (hvy : 0 < varsum y) :
    corrR x y = covsum x y / (Real.sqrt (varsum x) * Real.sqrt (varsum y)) := by
  rw [corrR, hx, hy, min_self]
  have hs : (0 : ℝ) < (N : ℝ) - 1 := by
    have h2 : (2 : ℝ) ≤ (N : ℝ) := by exact_mod_cast hN
    linarith
  rw [Real.sqrt_div hvx.le, Real.sqrt_div hvy.le]
  have hsx : 0 < Real.sqrt (varsum x) := Real.sqrt_pos.mpr hvx
  have hsy : 0 < Real.sqrt (varsum y) := Real.sqrt_pos.mpr hvy
  have hss : 0 < Real.sqrt ((N : ℝ) - 1) := Real.sqrt_pos.mpr hs
  have hsq : Real.sqrt ((N : ℝ) - 1) * Real.sqrt ((N : ℝ) - 1) = (N : ℝ) - 1 :=
    Real.mul_self_sqrt hs.le
  rw [div_mul_div_comm, hsq]
  rw [div_div_div_eq]
  rw [mul_comm (covsum x y) ((N : ℝ) - 1), mul_div_mul_left _ _ hs.ne']

lemma corrR_self (x : List ℝ) (N : ℕ) (hN : 2 ≤ N) (hx : x.length = N)
    (hvx : 0 < varsum x) : corrR x x = 1 := by
  rw [corrR_eq x x N hN hx hx hvx hvx, ← varsum, Real.mul_self_sqrt (varsum_nonneg x)]
  exact div_self hvx.ne'

lemma corrMatrixR_psd (ts : TimeSeries) (N : ℕ) (hN : 2 ≤ N)
    (hlen : ∀ i, (compChannels ts i).length = N)
    (hvar : ∀ i, 0 < varsum (castList (compChannels ts i))) :
    (corrMatrixR ts).PosSemidef := by
  have key : corrMatrixR ts =
      Matrix.conjTranspose (Matrix.of (fun (k : Fin N) (i : Fin 4) =>
        ((castList (compChannels ts i)).getD k 0 - listMean (castList (compChannels ts i))) /
          Real.sqrt (varsum (castList (compChannels ts i))))) *
      Matrix.of (fun (k : Fin N) (i : Fin 4) =>
        ((castList (compChannels ts i)).getD k 0 - listMean (castList (compChannels ts i))) /
          Real.sqrt (varsum (castList (compChannels ts i)))) := by
    ext i j
    rw [Matrix.mul_apply]
    simp only [Matrix.conjTranspose_apply, Matrix.of_apply, star_trivial]
    rw [corrMatrixR]
    simp only [Matrix.of_apply]
    rw [corrR_eq _ _ N hN (by rw [castList_length]; exact hlen i)
      (by rw [castList_length]; exact hlen j) (hvar i) (hvar j)]
    rw [covsum, castList_length, castList_length, hlen i, hlen j, min_self,
      Finset.sum_div]
    rw [← Fin.sum_univ_eq_sum_range (fun k =>
      ((castList (compChannels ts i)).getD k 0 - listMean (castList (compChannels ts i))) *
        ((castList (compChannels ts j)).getD k 0 - listMean (castList (compChannels ts j))) /
        (Real.sqrt (varsum (castList (compChannels ts i))) *
          Real.sqrt (varsum (castList (compChannels ts j))))) N]
    refine Finset.sum_congr rfl (fun k _ => ?_)
    exact (div_mul_div_comm _ _ _ _).symm
  rw [key]
  exact Matrix.posSemidef_conjTranspose_mul_self _

lemma corrMatrixR_trace (ts : TimeSeries) (N : ℕ) (hN : 2 ≤ N)
    (hlen : ∀ i, (compChannels ts i).length = N)
    (hvar : ∀ i, 0 < varsum (castList (compChannels ts i))) :
    (corrMatrixR ts).trace = 4 := by
  rw [Matrix.trace]
  have hdiag : ∀ i, Matrix.diag (corrMatrixR ts) i = 1 := by
    intro i
    rw [Matrix.diag_apply, corrMatrixR]
    simp only [Matrix.of_apply]
    exact corrR_self _ N hN (by rw [castList_length]; exact hlen i) (hvar i)
  rw [Finset.sum_congr rfl (fun i _ => hdiag i)]
  simp

lemma sum_eigenvalues_eq_trace {A : Matrix (Fin 4) (Fin 4) ℝ} (hA : A.IsHermitian) :
    ∑ i, hA.eigenvalues i = A.trace := by
  conv_rhs => rw [hA.spectral_theorem]
  rw [Matrix.trace_mul_cycle, unitary.coe_star_mul_self, one_mul,
    Matrix.trace_diagonal]
  simp [RCLike.ofReal_real_eq_id]

lemma effective_dimensionality_bounds (ts : TimeSeries) (N : ℕ) (hN : 2 ≤ N)
    (hlen : ∀ i, (compChannels ts i).length = N)
    (hvar : ∀ i, 0 < varsum (castList (compChannels ts i))) :
    1 ≤ effective_dimensionality ts ∧ effective_dimensionality ts ≤ 4 := by
  have hpsd := corrMatrixR_psd ts N hN hlen hvar
  have htrace := corrMatrixR_trace ts N hN hlen hvar
  have hsum : ∑ i, (corrMatrixR_isHermitian ts).eigenvalues i = 4 := by
    rw [sum_eigenvalues_eq_trace, htrace]
  have hnonneg : ∀ i, 0 ≤ (corrMatrixR_isHermitian ts).eigenvalues i := by
    intro i
    exact hpsd.eigenvalues_nonneg i
  constructor
  · have hex : ∃ i, (0.1 : ℝ) < (corrMatrixR_isHermitian ts).eigenvalues i := by
      by_contra hno
      push_neg at hno
      have hle : ∑ i, (corrMatrixR_isHermitian ts).eigenvalues i ≤
          ∑ _i : Fin 4, (0.1 : ℝ) :=
        Finset.sum_le_sum (fun i _ => hno i)
      rw [hsum] at hle
      simp at hle
      norm_num at hle
    obtain ⟨i, hi⟩ := hex
    rw [effective_dimensionality]
    refine Finset.card_pos.mpr ⟨i, ?_⟩
    rw [Finset.mem_filter]
    refine ⟨Finset.mem_univ i, ?_⟩
    rw [np_eigvals_eq]
    exact hi
  · rw [effective_dimensionality]
    calc (Finset.univ.filter (fun i => (0.1 : ℝ) < np_eigvals ts i)).card ≤
        (Finset.univ : Finset (Fin 4)).card := Finset.card_filter_le _ _
    _ = 4 := by simp

/-! ## Claim theorems -/

/-- C4 counterexample: a time series whose six channels all have equal length
2 on which `analyze` does not return a `PathMetrics` record — the constant
channels give a NaN correlation matrix and `np.linalg.eigvals` raises
`LinAlgError` (and the error is that, not an "insufficient samples" one). -/
theorem C4_counterexample :
    tsConst2.void.length = 2 ∧ tsConst2.filament.length = 2 ∧
    tsConst2.emergence.length = 2 ∧ tsConst2.resonance.length = 2 ∧
    tsConst2.crystal_phase.length = 2 ∧ tsConst2.convergence.length = 2 ∧
    analyze_convergence_path fnsZero tsConst2 =
      .error "LinAlgError: Array must not contain infs or NaNs" := by
  refine ⟨rfl, rfl, rfl, rfl, rfl, rfl, analyze_error_of_degenerate fnsZero tsConst2 (Or.inl ?_)⟩
  norm_num [tsConst2, varsum, covsum, listMean, Finset.sum_range_succ]

/-- C4 (amended): for channels of fewer than 2 samples, `analyze` does fail
rather than return silent NaNs, but with NumPy's `LinAlgError` (the NaN
correlation matrix reaching `eigvals`), not an "insufficient samples" error;
and for equal length N ≥ 2 it returns the `PathMetrics` record only when the
four stacked channels (void, filament, emergence, crystal_phase) each have
nonzero variance — a constant channel produces the same `LinAlgError`. -/
theorem C4_insufficient_samples (fns : FloatFuns) (ts : TimeSeries) (N : ℕ)
    (hlv : ts.void.length = N) (hlf : ts.filament.length = N)
    (hle : ts.emergence.length = N) (hlr : ts.resonance.length = N)
    (hlc : ts.crystal_phase.length = N) (hlg : ts.convergence.length = N) :
    (N < 2 → analyze_convergence_path fns ts =
      .error "LinAlgError: Array must not contain infs or NaNs") ∧
    (2 ≤ N → varsum ts.void ≠ 0 → varsum ts.filament ≠ 0 →
      varsum ts.emergence ≠ 0 → varsum ts.crystal_phase ≠ 0 →
      (analyze_convergence_path fns ts).isOk = true) := by
  constructor
  · intro hN
    exact analyze_error_of_degenerate fns ts
      (Or.inl (varsum_of_length_lt_two ts.void (by omega)))
  · intro hN h1 h2 h3 h4
    have h5 : ts.convergence ≠ [] := by
      intro hnil
      rw [hnil] at hlg
      simp at hlg
      omega
    rw [analyze_eq_ok fns ts h1 h2 h3 h4 h5]
    rfl

/-- C5: on every time series the analyzer accepts (equal channel length
N ≥ 2, the four stacked channels each of nonzero variance, nonempty
convergence channel), the returned `effective_dimensionality` is the count of
eigenvalues of the 4×4 correlation matrix of the void, filament, emergence
and crystal_phase channels exceeding 0.1; that count already lies in
`{1, 2, 3, 4}` (so clamping it to `[1, 4]` is the identity): the correlation
matrix is positive semidefinite with trace 4, so at least one eigenvalue
reaches 1 and at most four can exceed the threshold. -/
theorem C5_effective_dimensionality (fns : FloatFuns) (ts : TimeSeries) (N : ℕ)
    (hN : 2 ≤ N)
    (hlv : ts.void.length = N) (hlf : ts.filament.length = N)
    (hlemg : ts.emergence.length = N) (hlc : ts.crystal_phase.length = N)
    (hconv : ts.convergence ≠ [])
    (hvv : varsum ts.void ≠ 0) (hvf : varsum ts.filament ≠ 0)
    (hvemg : varsum ts.emergence ≠ 0) (hvc : varsum ts.crystal_phase ≠ 0) :
    (analyze_convergence_path fns ts).isOk = true ∧
    (okMetrics (analyze_convergence_path fns ts)).effective_dimensionality =
      effective_dimensionality ts ∧
    1 ≤ effective_dimensionality ts ∧ effective_dimensionality ts ≤ 4 ∧
    max 1 (min 4 (effective_dimensionality ts)) = effective_dimensionality ts := by
  have hok := analyze_eq_ok fns ts hvv hvf hvemg hvc hconv
  have hlen : ∀ i, (compChannels ts i).length = N := by
    intro i
    fin_cases i <;> simpa [compChannels]
  have hvar : ∀ i, 0 < varsum (castList (compChannels ts i)) := by
    intro i
    rw [varsum_cast]
    have hq : varsum (compChannels ts i) ≠ 0 := by
      fin_cases i <;> simpa [compChannels]
    have hq2 : 0 < varsum (compChannels ts i) :=
      lt_of_le_of_ne (varsum_nonneg _) (Ne.symm hq)
    exact_mod_cast hq2
  obtain ⟨hlow, hhigh⟩ := effective_dimensionality_bounds ts N hN hlen hvar
  refine ⟨by rw [hok]; rfl, by rw [hok]; rfl, hlow, hhigh, ?_⟩
  omega

/-- Witness for C5 at a concrete non-degenerate two-sample time series. -/
theorem C5_witness :
    (analyze_convergence_path fnsZero tsStep).isOk = true ∧
    (okMetrics (analyze_convergence_path fnsZero tsStep)).effective_dimensionality =
      effective_dimensionality tsStep ∧
    1 ≤ effective_dimensionality tsStep ∧ effective_dimensionality tsStep ≤ 4 ∧
    max 1 (min 4 (effective_dimensionality tsStep)) = effective_dimensionality tsStep :=
  C5_effective_dimensionality fnsZero tsStep 2 (by norm_num)
    rfl rfl rfl rfl (by simp [tsStep])
    (by norm_num [tsStep, varsum, covsum, listMean, Finset.sum_range_succ])
    (by norm_num [tsStep, varsum, covsum, listMean, Finset.sum_range_succ])
    (by norm_num [tsStep, varsum, covsum, listMean, Finset.sum_range_succ])
    (by norm_num [tsStep, varsum, covsum, listMean, Finset.sum_range_succ])

/-- Witness for C4 (amended): both branches at concrete time series. -/
theorem C4_witness :
    analyze_convergence_path fnsZero tsSingle =
      .error "LinAlgError: Array must not contain infs or NaNs" ∧
    (analyze_convergence_path fnsZero tsStep).isOk = true :=
  ⟨(C4_insufficient_samples fnsZero tsSingle 1 rfl rfl rfl rfl rfl rfl).1 (by norm_num),
   (C4_insufficient_samples fnsZero tsStep 2 rfl rfl rfl rfl rfl rfl).2 (by norm_num)
     (by norm_num [tsStep, varsum, covsum, listMean, Finset.sum_range_succ])
     (by norm_num [tsStep, varsum, covsum, listMean, Finset.sum_range_succ])
     (by norm_num [tsStep, varsum, covsum, listMean, Finset.sum_range_succ])
     (by norm_num [tsStep, varsum, covsum, listMean, Finset.sum_range_succ])⟩

/-- C10: passing `frequency = 0.0` or `amplitude = 0.0` explicitly to
`time_crystal_oscillation` yields the same value as omitting the argument —
Python's `or` replaces the falsy zero by the instance default — and under the
default parameters the `amplitude = 0.0` call returns `0.1 · sin(2π·t·1.618033)`,
which is nonzero whenever that sine value is nonzero. -/
theorem C10_zero_override (fns : FloatFuns) (p : TimeCrystalParameters) (t : ℚ) :
    (∀ a, time_crystal_oscillation fns p t (some 0) a =
      time_crystal_oscillation fns p t none a) ∧
    (∀ f, time_crystal_oscillation fns p t f (some 0) =
      time_crystal_oscillation fns p t f none) ∧
    (time_crystal_oscillation fns defaultParams t none (some 0) =
      0.1 * fns.sin (2 * fns.pi * t * 1.618033)) ∧
    (fns.sin (2 * fns.pi * t * 1.618033) ≠ 0 →
      time_crystal_oscillation fns defaultParams t none (some 0) ≠ 0) := by
  have h3 : time_crystal_oscillation fns defaultParams t none (some 0) =
      0.1 * fns.sin (2 * fns.pi * t * 1.618033) := by
    simp [time_crystal_oscillation, pyOr, defaultParams]
  refine ⟨fun a => ?_, fun f => ?_, h3, fun hs => ?_⟩
  · simp [time_crystal_oscillation, pyOr]
  · simp [time_crystal_oscillation, pyOr]
  · rw [h3]
    exact mul_ne_zero (by norm_num) hs

/-- Witness for C10 at a concrete interpretation and input. -/
theorem C10_witness :
    time_crystal_oscillation fnsOne defaultParams 1 (some 0) none =
      time_crystal_oscillation fnsOne defaultParams 1 none none ∧
    time_crystal_oscillation fnsOne defaultParams 1 none (some 0) ≠ 0 :=
  ⟨(C10_zero_override fnsOne defaultParams 1).1 none,
   (C10_zero_override fnsOne defaultParams 1).2.2.2 (by norm_num [fnsOne])⟩

/-- C3 counterexample: at `t = 1`, `frequency = 1`, `amplitude = 0` the code
does not return `amplitude · sin(2π·t·frequency)` (the zero amplitude is
replaced by the default `0.1`), and the magnitude of the returned value
exceeds the passed amplitude. -/
theorem C3_counterexample :
    time_crystal_oscillation fnsOne defaultParams 1 (some 1) (some 0) ≠
      0 * fnsOne.sin (2 * fnsOne.pi * 1 * 1) ∧
    ¬ |time_crystal_oscillation fnsOne defaultParams 1 (some 1) (some 0)| ≤ 0 := by
  constructor
  · norm_num [time_crystal_oscillation, pyOr, fnsOne, defaultParams]
  · norm_num [time_crystal_oscillation, pyOr, fnsOne, defaultParams]

/-- C3 (amended): for a nonzero frequency and a positive amplitude — values
Python's `or` keeps — `time_crystal_oscillation` returns
`amplitude · sin(2π·t·frequency)`, and when the sine interpretation is bounded
by 1 in magnitude the result magnitude never exceeds the amplitude.  (For a
zero frequency or a non-positive amplitude the original claim fails, see the
counterexample.) -/
theorem C3_oscillation_bound (fns : FloatFuns) (p : TimeCrystalParameters)
    (t f a : ℚ) (hsin : ∀ x, |fns.sin x| ≤ 1) (hf : f ≠ 0) (ha : 0 < a) :
    time_crystal_oscillation fns p t (some f) (some a) =
      a * fns.sin (2 * fns.pi * t * f) ∧
    |time_crystal_oscillation fns p t (some f) (some a)| ≤ a := by
  have he : time_crystal_oscillation fns p t (some f) (some a) =
      a * fns.sin (2 * fns.pi * t * f) := by
    simp [time_crystal_oscillation, pyOr, hf, ha.ne']
  refine ⟨he, ?_⟩
  rw [he, abs_mul, abs_of_pos ha]
  exact mul_le_of_le_one_right ha.le (hsin _)

/-- Witness for C3 (amended) at a concrete interpretation and input. -/
theorem C3_witness :
    time_crystal_oscillation fnsZero defaultParams 1 (some 1) (some 1) =
      1 * fnsZero.sin (2 * fnsZero.pi * 1 * 1) ∧
    |time_crystal_oscillation fnsZero defaultParams 1 (some 1) (some 1)| ≤ 1 :=
  C3_oscillation_bound fnsZero defaultParams 1 1 1
    (fun _ => by norm_num [fnsZero]) (by norm_num) (by norm_num)

/-- C8: the simulation is a pure function of its arguments — two calls with
identical value, category, configuration, oscillator parameters, constants
and primitive interpretations produce identical result records (all scalar
fields, time-series channels and convergence metrics equal). -/
theorem C8_determinism (v₁ v₂ : ℚ) (s₁ s₂ : String)
    (cfg₁ cfg₂ : CrystalCalculatorConfig) (fns₁ fns₂ : FloatFuns)
    (c₁ c₂ : QDTConstants) (p₁ p₂ : TimeCrystalParameters)
    (hv : v₁ = v₂) (hs : s₁ = s₂) (hcfg : cfg₁ = cfg₂) (hfns : fns₁ = fns₂)
    (hc : c₁ = c₂) (hp : p₁ = p₂) :
    calculate_crystal_enhanced_value fns₁ c₁ p₁ cfg₁ v₁ s₁ =
      calculate_crystal_enhanced_value fns₂ c₂ p₂ cfg₂ v₂ s₂ := by
  subst hv; subst hs; subst hcfg; subst hfns; subst hc; subst hp; rfl

/-- C7 counterexample: a call with non-positive `resonance_depth` (and a
`stability_window` exceeding `evolution_steps`) does not fail — the engine
returns a full result record. -/
theorem C7_counterexample :
    cfgDegenerate.resonance_depth ≤ 0 ∧
    cfgDegenerate.evolution_steps < cfgDegenerate.stability_window ∧
    (calculate_crystal_enhanced_value fnsZero defaultConstants defaultParams
      cfgDegenerate 1 "currency").isOk = true :=
  ⟨by norm_num [cfgDegenerate], by norm_num [cfgDegenerate],
   calculate_isOk fnsZero defaultConstants defaultParams cfgDegenerate 1 "currency"
     (by norm_num [cfgDegenerate])⟩

/-- C7 (amended): only `evolution_steps < 1` makes the engine fail (with an
error and no partial result: `ValueError` for a negative count, `IndexError`
for zero steps); for `evolution_steps ≥ 1` the call succeeds regardless of
`stability_window` and `resonance_depth`, so non-positive values of those, or
a window larger than the step count, are not rejected. -/
theorem C7_fail_fast (fns : FloatFuns) (c : QDTConstants)
    (p : TimeCrystalParameters) (cfg : CrystalCalculatorConfig) (v : ℚ) (s : String) :
    (cfg.evolution_steps < 1 →
      (calculate_crystal_enhanced_value fns c p cfg v s).isOk = false) ∧
    (1 ≤ cfg.evolution_steps →
      (calculate_crystal_enhanced_value fns c p cfg v s).isOk = true) :=
  ⟨fun h => calculate_isOk_false fns c p cfg v s h,
   fun h => calculate_isOk fns c p cfg v s h⟩

/-- Witness for C7 (amended): both branches at concrete configurations. -/
theorem C7_witness :
    (calculate_crystal_enhanced_value fnsZero defaultConstants defaultParams
      (cfgSteps 0) 1 "currency").isOk = false ∧
    (calculate_crystal_enhanced_value fnsZero defaultConstants defaultParams
      (cfgSteps 1) 1 "currency").isOk = true :=
  ⟨(C7_fail_fast fnsZero defaultConstants defaultParams (cfgSteps 0) 1 "currency").1
     (by norm_num [cfgSteps]),
   (C7_fail_fast fnsZero defaultConstants defaultParams (cfgSteps 1) 1 "currency").2
     (by norm_num [cfgSteps])⟩

/-- C2: for `evolution_steps ≥ 1` the simulation returns its result record;
its `qdt_value` equals `value · multiplier · (0.4·final_void +
0.4·final_filament + 0.2·final_emergence)` where the three finals are the
last elements of the respective time-series channels, and the multiplier the
code's `dict.get` lookup resolves coincides with the specification's closed
table (with unknown labels mapping to 1.0, not an error). -/
theorem C2_qdt_value (fns : FloatFuns) (c : QDTConstants)
    (p : TimeCrystalParameters) (cfg : CrystalCalculatorConfig) (v : ℚ) (s : String)
    (h : 1 ≤ cfg.evolution_steps) :
    calculate_crystal_enhanced_value fns c p cfg v s =
      .ok (simResult fns c p cfg v s) ∧
    (simResult fns c p cfg v s).qdt_value =
      v * specCategoryMultiplier fns s *
        (0.4 * (simResult fns c p cfg v s).time_series.void.getLastD 0 +
         0.4 * (simResult fns c p cfg v s).time_series.filament.getLastD 0 +
         0.2 * (simResult fns c p cfg v s).time_series.emergence.getLastD 0) ∧
    dictGetD (type_multipliers fns) s 1 = specCategoryMultiplier fns s := by
  refine ⟨calculate_eq_ok fns c p cfg v s h, ?_, multiplier_table fns s⟩
  simp only [simResult]
  rw [multiplier_table]
  ring

/-- Witness for C2 at a concrete interpretation and configuration. -/
theorem C2_witness :
    calculate_crystal_enhanced_value fnsZero defaultConstants defaultParams
        (cfgSteps 1) 1 "currency" =
      .ok (simResult fnsZero defaultConstants defaultParams (cfgSteps 1) 1 "currency") ∧
    (simResult fnsZero defaultConstants defaultParams (cfgSteps 1) 1 "currency").qdt_value =
      1 * specCategoryMultiplier fnsZero "currency" *
        (0.4 * (simResult fnsZero defaultConstants defaultParams
            (cfgSteps 1) 1 "currency").time_series.void.getLastD 0 +
         0.4 * (simResult fnsZero defaultConstants defaultParams
            (cfgSteps 1) 1 "currency").time_series.filament.getLastD 0 +
         0.2 * (simResult fnsZero defaultConstants defaultParams
            (cfgSteps 1) 1 "currency").time_series.emergence.getLastD 0) ∧
    dictGetD (type_multipliers fnsZero) "currency" 1 =
      specCategoryMultiplier fnsZero "currency" :=
  C2_qdt_value fnsZero defaultConstants defaultParams (cfgSteps 1) 1 "currency"
    (by norm_num [cfgSteps])

/-- C1: at every step of a simulation whose normalization total is nonzero
(the non-degenerate, "successful" case — the specification classifies a zero
total as a numerical-degeneracy failure), the normalized void, filament and
emergence channel entries sum to exactly 1, hence to 1 within the 1e-10
tolerance. -/
theorem C1_energy_normalization (fns : FloatFuns) (c : QDTConstants)
    (p : TimeCrystalParameters) (cfg : CrystalCalculatorConfig) (i : ℕ)
    (hi : i < cfg.evolution_steps.toNat)
    (hnz : total_at fns c p cfg ((linspace cfg.evolution_steps.toNat).getD i 0) ≠ 0) :
    (runLoop fns c p cfg).ts.void.getD i 0 +
        (runLoop fns c p cfg).ts.filament.getD i 0 +
        (runLoop fns c p cfg).ts.emergence.getD i 0 = 1 ∧
    |(runLoop fns c p cfg).ts.void.getD i 0 +
        (runLoop fns c p cfg).ts.filament.getD i 0 +
        (runLoop fns c p cfg).ts.emergence.getD i 0 - 1| ≤ 1e-10 := by
  have hlen : i < (linspace cfg.evolution_steps.toNat).length := by
    rw [linspace_length]
    exact hi
  have hsum : (runLoop fns c p cfg).ts.void.getD i 0 +
      (runLoop fns c p cfg).ts.filament.getD i 0 +
      (runLoop fns c p cfg).ts.emergence.getD i 0 = 1 := by
    rw [runLoop_void, runLoop_filament, runLoop_emergence,
      getD_map_of_lt _ _ (0 : ℚ) _ i hlen, getD_map_of_lt _ _ (0 : ℚ) _ i hlen,
      getD_map_of_lt _ _ (0 : ℚ) _ i hlen, voidN_at, filamentN_at, emergenceN_at,
      div_add_div_same, div_add_div_same]
    have htot : void_at fns c p ((linspace cfg.evolution_steps.toNat).getD i 0) +
        filament_at fns c p cfg ((linspace cfg.evolution_steps.toNat).getD i 0) +
        emergence_at fns c p ((linspace cfg.evolution_steps.toNat).getD i 0) =
        total_at fns c p cfg ((linspace cfg.evolution_steps.toNat).getD i 0) := rfl
    rw [htot]
    exact div_self hnz
  refine ⟨hsum, ?_⟩
  rw [hsum]
  norm_num

/-- Witness for C1 at a concrete interpretation, one step, index 0. -/
theorem C1_witness :
    (runLoop fnsZero defaultConstants defaultParams (cfgSteps 1)).ts.void.getD 0 0 +
        (runLoop fnsZero defaultConstants defaultParams (cfgSteps 1)).ts.filament.getD 0 0 +
        (runLoop fnsZero defaultConstants defaultParams (cfgSteps 1)).ts.emergence.getD 0 0 = 1 ∧
    |(runLoop fnsZero defaultConstants defaultParams (cfgSteps 1)).ts.void.getD 0 0 +
        (runLoop fnsZero defaultConstants defaultParams (cfgSteps 1)).ts.filament.getD 0 0 +
        (runLoop fnsZero defaultConstants defaultParams (cfgSteps 1)).ts.emergence.getD 0 0 - 1| ≤ 1e-10 :=
  C1_energy_normalization fnsZero defaultConstants defaultParams (cfgSteps 1) 0
    (by norm_num [cfgSteps])
    (by norm_num [total_at, void_at, filament_at, emergence_at,
      normalized_resonance_at, total_resonance_at, resonances_at,
      time_crystal_modulation, linspace, fnsZero, defaultParams, defaultConstants,
      cfgSteps, List.range_succ])

/-- C9: every value appended to the resonance channel lies in `[-1, 1]`: it is
either the guarded `0` (when the sum of absolute resonance terms is not
positive) or a sum of terms divided by the sum of their absolute values. -/
theorem C9_resonance_bounded (fns : FloatFuns) (c : QDTConstants)
    (p : TimeCrystalParameters) (cfg : CrystalCalculatorConfig) (i : ℕ)
    (hi : i < cfg.evolution_steps.toNat) :
    -1 ≤ (runLoop fns c p cfg).ts.resonance.getD i 0 ∧
      (runLoop fns c p cfg).ts.resonance.getD i 0 ≤ 1 := by
  have hlen : i < (linspace cfg.evolution_steps.toNat).length := by
    rw [linspace_length]
    exact hi
  rw [runLoop_resonance, getD_map_of_lt _ _ (0 : ℚ) _ i hlen]
  refine abs_le.mp ?_
  rw [normalized_resonance_at]
  split_ifs with hpos
  · rw [abs_div, abs_of_pos hpos, div_le_one hpos, total_resonance_at]
    exact list_abs_sum_le _
  · simp

/-- C6: the trial-division prime lookup returns the `n`-th prime of
`2, 3, 5, 7, 11, …` (index 0 gives 2) for every `n ≥ 0`, and every resonance
channel entry equals the specification's normalized-resonance formula built
from `sin(2π·p_i·coupling·t) · cos(π·p_i·recursion_exponent·t) ·
(1 + 0.1·crystal_mod)` with `p_i` the `i`-th prime, normalized by the sum of
absolute terms when that is nonzero and 0 otherwise. -/
theorem C6_prime_resonance :
    (∀ n, get_prime n = Nat.nth Nat.Prime n) ∧
    (∀ (fns : FloatFuns) (c : QDTConstants) (p : TimeCrystalParameters)
      (cfg : CrystalCalculatorConfig) (i : ℕ), i < cfg.evolution_steps.toNat →
      (runLoop fns c p cfg).ts.resonance.getD i 0 =
        specNormalizedResonance fns c p cfg
          ((linspace cfg.evolution_steps.toNat).getD i 0)) := by
  refine ⟨get_prime_eq_nth, fun fns c p cfg i hi => ?_⟩
  have hlen : i < (linspace cfg.evolution_steps.toNat).length := by
    rw [linspace_length]
    exact hi
  rw [runLoop_resonance, getD_map_of_lt _ _ (0 : ℚ) _ i hlen,
    normalized_resonance_eq_spec]

/-- Witness for C6: the 4th prime lookup and the index-0 resonance entry of a
concrete one-step simulation. -/
theorem C6_witness :
    get_prime 4 = Nat.nth Nat.Prime 4 ∧
    (runLoop fnsZero defaultConstants defaultParams (cfgSteps 1)).ts.resonance.getD 0 0 =
      specNormalizedResonance fnsZero defaultConstants defaultParams (cfgSteps 1)
        ((linspace (cfgSteps 1).evolution_steps.toNat).getD 0 0) :=
  ⟨C6_prime_resonance.1 4,
   C6_prime_resonance.2 fnsZero defaultConstants defaultParams (cfgSteps 1) 0
     (by norm_num [cfgSteps])⟩

/-- Witness for C9 at a concrete interpretation, one step, index 0. -/
theorem C9_witness :
    -1 ≤ (runLoop fnsZero defaultConstants defaultParams (cfgSteps 1)).ts.resonance.getD 0 0 ∧
      (runLoop fnsZero defaultConstants defaultParams (cfgSteps 1)).ts.resonance.getD 0 0 ≤ 1 :=
  C9_resonance_bounded fnsZero defaultConstants defaultParams (cfgSteps 1) 0
    (by norm_num [cfgSteps])

/-- Witness for C8 at concrete arguments. -/
theorem C8_witness :
    calculate_crystal_enhanced_value fnsZero defaultConstants defaultParams
        defaultConfig 1 "currency" =
      calculate_crystal_enhanced_value fnsZero defaultConstants defaultParams
        defaultConfig 1 "currency" :=
  C8_determinism 1 1 "currency" "currency" defaultConfig defaultConfig
    fnsZero fnsZero defaultConstants defaultConstants defaultParams defaultParams
    rfl rfl rfl rfl rfl rfl

end QDT

